import Mathlib

/-!
Formal model of the `caster` 2D ray-casting library (`src/lib.rs`).

The Rust source computes with `f32`; here the arithmetic is modelled by
exact real arithmetic.  The `PyResult` wrapper is omitted from the models:
no code path of the library ever constructs an error value (every `return`
is `Ok`), so each function is modelled by its payload type.  The recursive
circle refinement `intersection_circle` need not terminate for arbitrary
inputs, so its model carries an explicit fuel parameter; exhausting the
fuel yields the outer `none` of an `Option (Option Intersection)`, and the
composite scanners propagate that outer `none`.
Rust's `cos.is_sign_negative()` test is modelled as `cos < 0`, the exact
counterpart of a negative sign on a real number.
-/

namespace Caster

noncomputable section

/-- The `Intersection { x, y, len }` value type of the source. -/
@[ext]
structure Intersection where
  x : ℝ
  y : ℝ
  len : ℝ

/-- The `Ray { x, y, angle, intersection }` value type of the source. -/
structure Ray where
  x : ℝ
  y : ℝ
  angle : ℝ
  intersection : Option Intersection

/-- `vector_len` from the source: `((x1-x2)^2 + (y1-y2)^2).sqrt()`. -/
def vector_len (x1 y1 x2 y2 : ℝ) : ℝ :=
  Real.sqrt ((x1 - x2) ^ 2 + (y1 - y2) ^ 2)

/-- `vectors_cos` from the source. -/
def vectors_cos (x y x1 y1 x2 y2 len1 len2 : ℝ) : ℝ :=
  ((x - x1) * (x - x2) + (y - y1) * (y - y2)) / (len1 * len2)

/-- `choose_closest` from the source: keep the hit with the smaller `len`,
the first argument on ties. -/
def choose_closest : Option Intersection → Option Intersection → Option Intersection
  | some f, some s => if f.len > s.len then some s else some f
  | some f, none => some f
  | none, second => second

/-- `let ray_end_x = ray_angle.cos() * ray_len + ray_begin_x` of
`intersection_line`. -/
def ray_end_x (ray_begin_x ray_len ray_angle : ℝ) : ℝ :=
  Real.cos ray_angle * ray_len + ray_begin_x

/-- `let ray_end_y = ray_angle.sin() * ray_len + ray_begin_y` of
`intersection_line`. -/
def ray_end_y (ray_begin_y ray_len ray_angle : ℝ) : ℝ :=
  Real.sin ray_angle * ray_len + ray_begin_y

/-- The ray slope `ray_tg` of `intersection_line`:
`(ray_end_y - ray_begin_y) / (ray_end_x - ray_begin_x)`. -/
def ray_tg (ray_begin_x ray_begin_y ray_len ray_angle : ℝ) : ℝ :=
  (ray_end_y ray_begin_y ray_len ray_angle - ray_begin_y) /
    (ray_end_x ray_begin_x ray_len ray_angle - ray_begin_x)

/-- The ray intercept `ray_b` of `intersection_line`. -/
def ray_b (ray_begin_x ray_begin_y ray_len ray_angle : ℝ) : ℝ :=
  ray_begin_y - ray_tg ray_begin_x ray_begin_y ray_len ray_angle * ray_begin_x

/-- The segment slope `line_tg` of `intersection_line`:
`(line_y2 - line_y1) / (line_x2 - line_x1)`. -/
def line_tg (line_x1 line_y1 line_x2 line_y2 : ℝ) : ℝ :=
  (line_y2 - line_y1) / (line_x2 - line_x1)

/-- The segment intercept `line_b` of `intersection_line`. -/
def line_b (line_x1 line_y1 line_x2 line_y2 : ℝ) : ℝ :=
  line_y1 - line_tg line_x1 line_y1 line_x2 line_y2 * line_x1

/-- The candidate `y` of `intersection_line`:
`(ray_b * line_tg - line_b * ray_tg) / tg_diff`. -/
def hit_y (ray_begin_x ray_begin_y ray_len ray_angle line_x1 line_y1 line_x2 line_y2 : ℝ) : ℝ :=
  (ray_b ray_begin_x ray_begin_y ray_len ray_angle * line_tg line_x1 line_y1 line_x2 line_y2 -
      line_b line_x1 line_y1 line_x2 line_y2 * ray_tg ray_begin_x ray_begin_y ray_len ray_angle) /
    (line_tg line_x1 line_y1 line_x2 line_y2 - ray_tg ray_begin_x ray_begin_y ray_len ray_angle)

/-- The candidate `x` of `intersection_line`: `(y - ray_b) / ray_tg`. -/
def hit_x (ray_begin_x ray_begin_y ray_len ray_angle line_x1 line_y1 line_x2 line_y2 : ℝ) : ℝ :=
  (hit_y ray_begin_x ray_begin_y ray_len ray_angle line_x1 line_y1 line_x2 line_y2 -
      ray_b ray_begin_x ray_begin_y ray_len ray_angle) /
    ray_tg ray_begin_x ray_begin_y ray_len ray_angle

/-- The candidate `len` of `intersection_line`:
`vector_len(ray_begin_x, ray_begin_y, x, y)`. -/
def hit_len (ray_begin_x ray_begin_y ray_len ray_angle line_x1 line_y1 line_x2 line_y2 : ℝ) : ℝ :=
  vector_len ray_begin_x ray_begin_y
    (hit_x ray_begin_x ray_begin_y ray_len ray_angle line_x1 line_y1 line_x2 line_y2)
    (hit_y ray_begin_x ray_begin_y ray_len ray_angle line_x1 line_y1 line_x2 line_y2)

/-- The `cos` computed by `intersection_line` just before its final guard:
`vectors_cos(ray_begin_x, ray_begin_y, ray_end_x, ray_end_y, x, y, len, ray_len)`. -/
def line_cos (ray_begin_x ray_begin_y ray_len ray_angle line_x1 line_y1 line_x2 line_y2 : ℝ) : ℝ :=
  vectors_cos ray_begin_x ray_begin_y
    (ray_end_x ray_begin_x ray_len ray_angle) (ray_end_y ray_begin_y ray_len ray_angle)
    (hit_x ray_begin_x ray_begin_y ray_len ray_angle line_x1 line_y1 line_x2 line_y2)
    (hit_y ray_begin_x ray_begin_y ray_len ray_angle line_x1 line_y1 line_x2 line_y2)
    (hit_len ray_begin_x ray_begin_y ray_len ray_angle line_x1 line_y1 line_x2 line_y2)
    ray_len

/-- `intersection_line` from the source, with each Rust `let` named by one
of the helper definitions above. -/
def intersection_line
    (ray_begin_x ray_begin_y ray_len ray_angle line_x1 line_y1 line_x2 line_y2 : ℝ) :
    Option Intersection :=
  if line_tg line_x1 line_y1 line_x2 line_y2 -
      ray_tg ray_begin_x ray_begin_y ray_len ray_angle = 0 then none
  else if min line_x1 line_x2 >
        hit_x ray_begin_x ray_begin_y ray_len ray_angle line_x1 line_y1 line_x2 line_y2 ∨
      hit_x ray_begin_x ray_begin_y ray_len ray_angle line_x1 line_y1 line_x2 line_y2 >
        max line_x1 line_x2 ∨
      min line_y1 line_y2 >
        hit_y ray_begin_x ray_begin_y ray_len ray_angle line_x1 line_y1 line_x2 line_y2 ∨
      hit_y ray_begin_x ray_begin_y ray_len ray_angle line_x1 line_y1 line_x2 line_y2 >
        max line_y1 line_y2 then none
  else if hit_len ray_begin_x ray_begin_y ray_len ray_angle line_x1 line_y1 line_x2 line_y2 >
      ray_len then none
  else if line_cos ray_begin_x ray_begin_y ray_len ray_angle line_x1 line_y1 line_x2 line_y2 <
      0 then none
  else
    some
      ⟨hit_x ray_begin_x ray_begin_y ray_len ray_angle line_x1 line_y1 line_x2 line_y2,
        hit_y ray_begin_x ray_begin_y ray_len ray_angle line_x1 line_y1 line_x2 line_y2,
        hit_len ray_begin_x ray_begin_y ray_len ray_angle line_x1 line_y1 line_x2 line_y2⟩

/-- `intersection_lines` from the source: fold `choose_closest` over the
per-segment results, starting from `None`. -/
def intersection_lines (ray_begin_x ray_begin_y ray_len ray_angle : ℝ)
    (lines : List (ℝ × ℝ × ℝ × ℝ)) : Option Intersection :=
  lines.foldl
    (fun closest l =>
      choose_closest closest
        (intersection_line ray_begin_x ray_begin_y ray_len ray_angle l.1 l.2.1 l.2.2.1 l.2.2.2))
    none

/-- The `let len_to_circle` of `intersection_circle`: the distance from the
current point to the circle surface, via `len_to_center`. -/
def len_to_circle (ray_begin_x ray_begin_y circle_x circle_y circle_radius : ℝ) : ℝ :=
  if vector_len ray_begin_x ray_begin_y circle_x circle_y < circle_radius then
    circle_radius - vector_len ray_begin_x ray_begin_y circle_x circle_y
  else vector_len ray_begin_x ray_begin_y circle_x circle_y - circle_radius

/-- `intersection_circle` from the source, with a fuel parameter making the
recursion total: `none` means the fuel ran out before the recursion did. -/
def intersection_circleF :
    ℕ → ℝ → ℝ → ℝ → ℝ → ℝ → ℝ → ℝ → ℝ → ℝ → Option (Option Intersection)
  | 0, _, _, _, _, _, _, _, _, _ => none
  | n + 1, ray_begin_x, ray_begin_y, ray_len, ray_angle, circle_x, circle_y, circle_radius,
      accuracy, len =>
    if len > ray_len then some none
    else if len_to_circle ray_begin_x ray_begin_y circle_x circle_y circle_radius ≤ accuracy then
      some (some ⟨ray_begin_x, ray_begin_y, len⟩)
    else
      intersection_circleF n
        (Real.cos ray_angle * len_to_circle ray_begin_x ray_begin_y circle_x circle_y
            circle_radius + ray_begin_x)
        (Real.sin ray_angle * len_to_circle ray_begin_x ray_begin_y circle_x circle_y
            circle_radius + ray_begin_y)
        ray_len ray_angle circle_x circle_y circle_radius accuracy
        (len + len_to_circle ray_begin_x ray_begin_y circle_x circle_y circle_radius)

/-- The loop of `intersection_circles` from the source, over the remaining
circles, with the accumulated `closest`. -/
def intersection_circlesGo (n : ℕ) (ray_begin_x ray_begin_y ray_len ray_angle accuracy : ℝ) :
    Option Intersection → List (ℝ × ℝ × ℝ) → Option (Option Intersection)
  | closest, [] => some closest
  | closest, c :: rest =>
    match intersection_circleF n ray_begin_x ray_begin_y ray_len ray_angle c.1 c.2.1 c.2.2
        accuracy 0 with
    | none => none
    | some hit =>
      intersection_circlesGo n ray_begin_x ray_begin_y ray_len ray_angle accuracy
        (choose_closest closest hit) rest

/-- `intersection_circles` from the source: fold `choose_closest` over the
per-circle results (each started at `len = 0`), starting from `None`. -/
def intersection_circlesF (n : ℕ) (ray_begin_x ray_begin_y ray_len ray_angle : ℝ)
    (circles : List (ℝ × ℝ × ℝ)) (accuracy : ℝ) : Option (Option Intersection) :=
  intersection_circlesGo n ray_begin_x ray_begin_y ray_len ray_angle accuracy none circles

/-- `intersection` from the source: merge the segment scan and the circle
scan with one more `choose_closest`. -/
def intersectionF (n : ℕ) (ray_begin_x ray_begin_y ray_len ray_angle : ℝ)
    (lines : List (ℝ × ℝ × ℝ × ℝ)) (circles : List (ℝ × ℝ × ℝ)) (circles_accuracy : ℝ) :
    Option (Option Intersection) :=
  match intersection_circlesF n ray_begin_x ray_begin_y ray_len ray_angle circles
      circles_accuracy with
  | none => none
  | some intersect_circles =>
    some
      (choose_closest (intersection_lines ray_begin_x ray_begin_y ray_len ray_angle lines)
        intersect_circles)

/-- The loop of `rays` from the source, over the remaining ray indices. -/
def raysGo (n : ℕ) (view_angle fov : ℝ) (rays_count : ℕ)
    (ray_begin_x ray_begin_y ray_len : ℝ) (lines : List (ℝ × ℝ × ℝ × ℝ))
    (circles : List (ℝ × ℝ × ℝ)) (circles_accuracy : ℝ) : List ℕ → Option (List Ray)
  | [] => some []
  | i :: rest =>
    let angle := (i : ℝ) / (rays_count : ℝ) * fov + (view_angle - fov / 2)
    match intersectionF n ray_begin_x ray_begin_y ray_len angle lines circles
        circles_accuracy with
    | none => none
    | some intersect =>
      match raysGo n view_angle fov rays_count ray_begin_x ray_begin_y ray_len lines circles
          circles_accuracy rest with
      | none => none
      | some rs => some (Ray.mk ray_begin_x ray_begin_y angle intersect :: rs)

/-- `rays` from the source: one ray per index `i < rays_count`, at angle
`i / rays_count * fov + (view_angle - fov / 2)`, in sampling order. -/
def raysF (n : ℕ) (view_angle fov : ℝ) (rays_count : ℕ)
    (ray_begin_x ray_begin_y ray_len : ℝ) (lines : List (ℝ × ℝ × ℝ × ℝ))
    (circles : List (ℝ × ℝ × ℝ)) (circles_accuracy : ℝ) : Option (List Ray) :=
  raysGo n view_angle fov rays_count ray_begin_x ray_begin_y ray_len lines circles
    circles_accuracy (List.range rays_count)

end

/-! ## Claim C1: Scenario A (vertical segment) -/

/-- **C1.** Scenario A — origin `(0,0)`, angle `0`, `maxLength = 10`, the
single segment from `(5,-5)` to `(5,5)` — does **not** produce the claimed
intersection at `(5,0)` with `len = 5`: the segment is vertical, its slope
computation divides by `x2 - x1 = 0`, and the code reports no
intersection (in the exact-arithmetic model the degenerate slope makes the
parallelism test fire). -/
theorem scenarioA_returns_none :
    intersection_line 0 0 10 0 5 (-5) 5 5 = none := by
  have hlt : line_tg 5 (-5) 5 5 = 0 := by
    simp [line_tg]
  have hrt : ray_tg 0 0 10 0 = 0 := by
    simp [ray_tg, ray_end_x, ray_end_y]
  rw [intersection_line, if_pos]
  rw [hlt, hrt]
  ring

/-! ## Claim C4: the Nearest Selector -/

/-- **C4.** `choose_closest` returns `none` when both inputs are `none`,
the present one when exactly one is present, and with two hits the one
with the smaller `len`, the first argument on ties. -/
theorem choose_closest_spec (i1 i2 : Intersection) :
    choose_closest none none = none ∧
    choose_closest (some i1) none = some i1 ∧
    choose_closest none (some i2) = some i2 ∧
    (i1.len < i2.len → choose_closest (some i1) (some i2) = some i1) ∧
    (i2.len < i1.len → choose_closest (some i1) (some i2) = some i2) ∧
    (i1.len = i2.len → choose_closest (some i1) (some i2) = some i1) := by
  refine ⟨rfl, rfl, rfl, ?_, ?_, ?_⟩
  · intro h
    simp only [choose_closest]
    rw [if_neg (by linarith)]
  · intro h
    simp only [choose_closest]
    rw [if_pos h]
  · intro h
    simp only [choose_closest]
    rw [if_neg (by linarith)]

/-- Witness for C4 at concrete hits of lengths `1 < 2`. -/
theorem choose_closest_spec_witness :
    choose_closest (some ⟨0, 0, 1⟩) (some ⟨0, 0, 2⟩) = some ⟨0, 0, 1⟩ :=
  (choose_closest_spec ⟨0, 0, 1⟩ ⟨0, 0, 2⟩).2.2.2.1 (by norm_num)

/-! ## The circle refiner -/

theorem intersection_circleF_succ (n : ℕ)
    (ray_begin_x ray_begin_y ray_len ray_angle circle_x circle_y circle_radius accuracy len :
      ℝ) :
    intersection_circleF (n + 1) ray_begin_x ray_begin_y ray_len ray_angle circle_x circle_y
        circle_radius accuracy len =
      if len > ray_len then some none
      else if len_to_circle ray_begin_x ray_begin_y circle_x circle_y circle_radius ≤
          accuracy then
        some (some ⟨ray_begin_x, ray_begin_y, len⟩)
      else
        intersection_circleF n
          (Real.cos ray_angle * len_to_circle ray_begin_x ray_begin_y circle_x circle_y
              circle_radius + ray_begin_x)
          (Real.sin ray_angle * len_to_circle ray_begin_x ray_begin_y circle_x circle_y
              circle_radius + ray_begin_y)
          ray_len ray_angle circle_x circle_y circle_radius accuracy
          (len + len_to_circle ray_begin_x ray_begin_y circle_x circle_y circle_radius) :=
  rfl

theorem len_to_circle_nonneg (ray_begin_x ray_begin_y circle_x circle_y circle_radius : ℝ) :
    0 ≤ len_to_circle ray_begin_x ray_begin_y circle_x circle_y circle_radius := by
  rw [len_to_circle]
  split_ifs with h
  · linarith
  · linarith [le_of_not_lt h]

theorem abs_dist_sub_radius (ray_begin_x ray_begin_y circle_x circle_y circle_radius : ℝ) :
    |vector_len ray_begin_x ray_begin_y circle_x circle_y - circle_radius| =
      len_to_circle ray_begin_x ray_begin_y circle_x circle_y circle_radius := by
  rw [len_to_circle]
  split_ifs with h
  · rw [abs_of_neg (by linarith)]
    ring
  · exact abs_of_nonneg (by linarith [le_of_not_lt h])

/-! ## Claim C6: accepted circle hits are within `accuracy` of the surface -/

/-- **C6.** Whenever the circle refiner returns a hit, the distance from the
returned point to the circle surface, `|distance to center - radius|`, is at
most `accuracy`. -/
theorem circle_hit_accuracy :
    ∀ (n : ℕ)
      (ray_begin_x ray_begin_y ray_len ray_angle circle_x circle_y circle_radius accuracy len :
        ℝ) (i : Intersection),
      intersection_circleF n ray_begin_x ray_begin_y ray_len ray_angle circle_x circle_y
          circle_radius accuracy len = some (some i) →
      |vector_len i.x i.y circle_x circle_y - circle_radius| ≤ accuracy := by
  intro n
  induction n with
  | zero =>
    intro rbx rby rl ang cx cy r acc len i h
    simp [intersection_circleF] at h
  | succ n ih =>
    intro rbx rby rl ang cx cy r acc len i h
    rw [intersection_circleF_succ] at h
    split_ifs at h with h1 h2
    · simp at h
    · obtain rfl : (⟨rbx, rby, len⟩ : Intersection) = i := by simpa using h
      simpa [abs_dist_sub_radius] using h2
    · exact ih _ _ _ _ _ _ _ _ _ _ h

/-- Witness for C6: a concrete accepting run of the circle refiner. -/
theorem circle_hit_accuracy_witness :
    |vector_len 0 0 0 0 - 0| ≤ 1 :=
  circle_hit_accuracy 1 0 0 7 0 0 0 0 1 0 ⟨0, 0, 0⟩ (by
    rw [show (1 : ℕ) = 0 + 1 from rfl, intersection_circleF_succ]
    rw [if_neg (by norm_num), if_pos]
    rw [len_to_circle, vector_len]
    norm_num)

/-! ## Claim C10: termination of the circle refiner -/

/-- **C10.** For positive `accuracy`, the circle refiner terminates: every
non-accepting step adds more than `accuracy` to `len`, so any fuel of at
least `(ray_len - len) / accuracy + 2` entries (for the initial `len = 0`,
`ray_len / accuracy + 1` recursive steps) suffices for the recursion to
finish on its own. -/
theorem circleF_terminates :
    ∀ (n : ℕ)
      (ray_begin_x ray_begin_y ray_len ray_angle circle_x circle_y circle_radius accuracy len :
        ℝ),
      0 < accuracy → 1 ≤ n →
      (ray_len - len) / accuracy + 2 ≤ (n : ℝ) →
      (intersection_circleF n ray_begin_x ray_begin_y ray_len ray_angle circle_x circle_y
          circle_radius accuracy len).isSome := by
  intro n
  induction n with
  | zero =>
    intro rbx rby rl ang cx cy r acc len hacc h1 h2
    exact absurd h1 (by norm_num)
  | succ n ih =>
    intro rbx rby rl ang cx cy r acc len hacc h1 h2
    rw [intersection_circleF_succ]
    split_ifs with hrl hcircle
    · rfl
    · rfl
    · have hlen_le : len ≤ rl := le_of_not_lt hrl
      have hstep : acc < len_to_circle rbx rby cx cy r := lt_of_not_le hcircle
      have hdiv : (1 : ℝ) < len_to_circle rbx rby cx cy r / acc :=
        (one_lt_div hacc).mpr hstep
      have hcast : ((n : ℝ) + 1) = ((n + 1 : ℕ) : ℝ) := by push_cast; ring
      have hnn : (0 : ℝ) ≤ (rl - len) / acc := div_nonneg (by linarith) hacc.le
      have hge : (1 : ℝ) ≤ (n : ℝ) := by
        have := h2
        rw [← hcast] at this
        linarith
    -- recursive call: the remaining budget shrinks by more than one step
      apply ih
      · exact hacc
      · exact_mod_cast hge
      · have hsplit :
            (rl - (len + len_to_circle rbx rby cx cy r)) / acc =
              (rl - len) / acc - len_to_circle rbx rby cx cy r / acc := by
          ring
        rw [hsplit]
        rw [← hcast] at h2
        linarith

/-- Witness for C10 at `ray_len = 1`, `accuracy = 1`, fuel `3`. -/
theorem circleF_terminates_witness :
    (intersection_circleF 3 0 0 1 0 5 5 1 1 0).isSome :=
  circleF_terminates 3 0 0 1 0 5 5 1 1 0 (by norm_num) (by norm_num) (by norm_num)

/-! ## Claim C9: no boundary validation of invalid inputs -/

/-- **C9.** Invalid inputs are *not* rejected before computation: a
`rays_count` of `0` yields a normal `Ok` with an empty fan; a negative
circle radius and a non-positive accuracy both proceed into the refinement
and yield ordinary hits; a negative `maxLength` yields an ordinary
no-intersection result.  (No code path of the library ever returns an
error value.) -/
theorem invalid_inputs_not_rejected :
    (∀ (n : ℕ) (view_angle fov ray_begin_x ray_begin_y ray_len circles_accuracy : ℝ)
        (lines : List (ℝ × ℝ × ℝ × ℝ)) (circles : List (ℝ × ℝ × ℝ)),
        raysF n view_angle fov 0 ray_begin_x ray_begin_y ray_len lines circles
          circles_accuracy = some []) ∧
    intersection_circleF 1 0 0 10 0 0 0 (-1) 1 0 = some (some ⟨0, 0, 0⟩) ∧
    intersection_circleF 1 0 0 10 0 0 0 0 0 0 = some (some ⟨0, 0, 0⟩) ∧
    intersection_line 0 0 (-1) 0 1 1 2 2 = none := by
  have hv0 : vector_len 0 0 0 0 = 0 := by
    rw [vector_len]
    norm_num
  refine ⟨fun n va fov rbx rby rl acc ls cs => rfl, ?_, ?_, ?_⟩
  · rw [show (1 : ℕ) = 0 + 1 from rfl, intersection_circleF_succ]
    rw [if_neg (by norm_num), if_pos]
    rw [len_to_circle, hv0]
    norm_num
  · rw [show (1 : ℕ) = 0 + 1 from rfl, intersection_circleF_succ]
    rw [if_neg (by norm_num), if_pos]
    rw [len_to_circle, hv0]
    norm_num
  · have hrex : ray_end_x 0 (-1) 0 = -1 := by
      rw [ray_end_x, Real.cos_zero]; norm_num
    have hrey : ray_end_y 0 (-1) 0 = 0 := by
      rw [ray_end_y, Real.sin_zero]; norm_num
    have hrt : ray_tg 0 0 (-1) 0 = 0 := by
      rw [ray_tg, hrex, hrey]; norm_num
    have hrb : ray_b 0 0 (-1) 0 = 0 := by
      rw [ray_b, hrt]; norm_num
    have hlt : line_tg 1 1 2 2 = 1 := by
      rw [line_tg]; norm_num
    have hlb : line_b 1 1 2 2 = 0 := by
      rw [line_b, hlt]; norm_num
    have hy : hit_y 0 0 (-1) 0 1 1 2 2 = 0 := by
      rw [hit_y, hrb, hlt, hlb, hrt]; norm_num
    have hx : hit_x 0 0 (-1) 0 1 1 2 2 = 0 := by
      rw [hit_x, hy, hrb, hrt]; norm_num
    rw [intersection_line]
    rw [if_neg (by rw [hlt, hrt]; norm_num)]
    rw [if_pos]
    rw [hx]
    norm_num

/-! ## Claim C8, counterexample part -/

/-- **C8 (counterexample).** The `intersection_circle` entry point takes an
arbitrary initial `len`; with initial `len = -5` and a circle accepted on
the first step, the returned intersection has `len = -5 < 0`, violating
`0 ≤ len`. -/
theorem circle_negative_initial_len :
    intersection_circleF 1 0 0 10 0 0 0 0 1 (-5) = some (some ⟨0, 0, -5⟩) ∧
    ¬ (0 : ℝ) ≤ (Intersection.mk 0 0 (-5)).len := by
  constructor
  · rw [show (1 : ℕ) = 0 + 1 from rfl, intersection_circleF_succ]
    rw [if_neg (by norm_num), if_pos]
    rw [len_to_circle, vector_len]
    norm_num
  · norm_num

/-! ## Provenance of merged hits -/

theorem choose_closest_cases (a b : Option Intersection) (i : Intersection)
    (h : choose_closest a b = some i) : a = some i ∨ b = some i := by
  cases a with
  | none =>
    cases b with
    | none => simp [choose_closest] at h
    | some s => exact Or.inr h
  | some f =>
    cases b with
    | none => exact Or.inl h
    | some s =>
      simp only [choose_closest] at h
      split_ifs at h
      · exact Or.inr h
      · exact Or.inl h

theorem foldl_choose_closest_cases {α : Type} (f : α → Option Intersection) :
    ∀ (l : List α) (c : Option Intersection) (i : Intersection),
      l.foldl (fun closest a => choose_closest closest (f a)) c = some i →
      c = some i ∨ ∃ a ∈ l, f a = some i := by
  intro l
  induction l with
  | nil => intro c i h; exact Or.inl h
  | cons a t ih =>
    intro c i h
    simp only [List.foldl_cons] at h
    rcases ih _ _ h with hc | ⟨b, hb, hfb⟩
    · rcases choose_closest_cases _ _ _ hc with h1 | h2
      · exact Or.inl h1
      · exact Or.inr ⟨a, by simp, h2⟩
    · exact Or.inr ⟨b, by simp [hb], hfb⟩

theorem intersection_line_len_bounds
    (ray_begin_x ray_begin_y ray_len ray_angle line_x1 line_y1 line_x2 line_y2 : ℝ)
    (i : Intersection)
    (h : intersection_line ray_begin_x ray_begin_y ray_len ray_angle line_x1 line_y1 line_x2
      line_y2 = some i) :
    0 ≤ i.len ∧ i.len ≤ ray_len := by
  rw [intersection_line] at h
  split_ifs at h with h1 h2 h3 h4
  all_goals
    simp only [Option.some.injEq, reduceCtorEq] at h
  all_goals
    subst h
    refine ⟨?_, le_of_not_lt h3⟩
    simp only [hit_len, vector_len]
    exact Real.sqrt_nonneg _

theorem intersection_circleF_len_bounds :
    ∀ (n : ℕ)
      (ray_begin_x ray_begin_y ray_len ray_angle circle_x circle_y circle_radius accuracy len :
        ℝ) (i : Intersection),
      0 ≤ len →
      intersection_circleF n ray_begin_x ray_begin_y ray_len ray_angle circle_x circle_y
          circle_radius accuracy len = some (some i) →
      0 ≤ i.len ∧ i.len ≤ ray_len := by
  intro n
  induction n with
  | zero =>
    intro rbx rby rl ang cx cy r acc len i hlen h
    simp [intersection_circleF] at h
  | succ n ih =>
    intro rbx rby rl ang cx cy r acc len i hlen h
    rw [intersection_circleF_succ] at h
    split_ifs at h with h1 h2
    · simp at h
    · obtain rfl : (⟨rbx, rby, len⟩ : Intersection) = i := by simpa using h
      exact ⟨hlen, le_of_not_lt h1⟩
    · exact ih _ _ _ _ _ _ _ _ _ _
        (add_nonneg hlen (len_to_circle_nonneg rbx rby cx cy r)) h

theorem intersection_circlesGo_cases (n : ℕ)
    (ray_begin_x ray_begin_y ray_len ray_angle accuracy : ℝ) :
    ∀ (cs : List (ℝ × ℝ × ℝ)) (closest : Option Intersection) (i : Intersection),
      intersection_circlesGo n ray_begin_x ray_begin_y ray_len ray_angle accuracy closest cs =
        some (some i) →
      closest = some i ∨
        ∃ c ∈ cs,
          intersection_circleF n ray_begin_x ray_begin_y ray_len ray_angle c.1 c.2.1 c.2.2
            accuracy 0 = some (some i) := by
  intro cs
  induction cs with
  | nil =>
    intro closest i h
    simp only [intersection_circlesGo] at h
    exact Or.inl (by simpa using h)
  | cons c t ih =>
    intro closest i h
    simp only [intersection_circlesGo] at h
    cases hic : intersection_circleF n ray_begin_x ray_begin_y ray_len ray_angle c.1 c.2.1
        c.2.2 accuracy 0 with
    | none => rw [hic] at h; simp at h
    | some hit =>
      rw [hic] at h
      rcases ih _ _ h with hcc | ⟨d, hd, hfd⟩
      · rcases choose_closest_cases _ _ _ hcc with h1 | h2
        · exact Or.inl h1
        · exact Or.inr ⟨c, by simp, by rw [hic, h2]⟩
      · exact Or.inr ⟨d, by simp [hd], hfd⟩

theorem raysGo_intersections (n : ℕ) (view_angle fov : ℝ) (rays_count : ℕ)
    (ray_begin_x ray_begin_y ray_len : ℝ) (lines : List (ℝ × ℝ × ℝ × ℝ))
    (circles : List (ℝ × ℝ × ℝ)) (circles_accuracy : ℝ) :
    ∀ (js : List ℕ) (l : List Ray),
      raysGo n view_angle fov rays_count ray_begin_x ray_begin_y ray_len lines circles
          circles_accuracy js = some l →
      ∀ r ∈ l,
        ∃ a : ℝ,
          intersectionF n ray_begin_x ray_begin_y ray_len a lines circles circles_accuracy =
            some r.intersection := by
  intro js
  induction js with
  | nil =>
    intro l h r hr
    simp only [raysGo] at h
    obtain rfl : ([] : List Ray) = l := by simpa using h
    simp at hr
  | cons j t ih =>
    intro l h r hr
    simp only [raysGo] at h
    cases hint : intersectionF n ray_begin_x ray_begin_y ray_len
        ((j : ℝ) / (rays_count : ℝ) * fov + (view_angle - fov / 2)) lines circles
        circles_accuracy with
    | none => rw [hint] at h; simp at h
    | some it =>
      rw [hint] at h
      cases hgo : raysGo n view_angle fov rays_count ray_begin_x ray_begin_y ray_len lines
          circles circles_accuracy t with
      | none => rw [hgo] at h; simp at h
      | some rs =>
        rw [hgo] at h
        obtain rfl :
            Ray.mk ray_begin_x ray_begin_y
                ((j : ℝ) / (rays_count : ℝ) * fov + (view_angle - fov / 2)) it :: rs = l := by
          simpa using h
        rcases List.mem_cons.mp hr with rfl | hmem
        · exact ⟨(j : ℝ) / (rays_count : ℝ) * fov + (view_angle - fov / 2), by rw [hint]⟩
        · exact ih rs hgo r hmem

/-! ## Claim C8, amended part -/

/-- **C8 (amended).** Every intersection returned by any entry point
satisfies `0 ≤ len ≤ ray_len`, provided the initial `len` handed to the
exposed `intersection_circle` entry point is non-negative (every internal
call starts it at `0`; the counterexample shows a negative initial `len`
is reproduced in the result). -/
theorem all_hits_len_bounds :
    (∀ (ray_begin_x ray_begin_y ray_len ray_angle line_x1 line_y1 line_x2 line_y2 : ℝ)
        (i : Intersection),
        intersection_line ray_begin_x ray_begin_y ray_len ray_angle line_x1 line_y1 line_x2
          line_y2 = some i →
        0 ≤ i.len ∧ i.len ≤ ray_len) ∧
    (∀ (n : ℕ)
        (ray_begin_x ray_begin_y ray_len ray_angle circle_x circle_y circle_radius accuracy
          len : ℝ) (i : Intersection),
        0 ≤ len →
        intersection_circleF n ray_begin_x ray_begin_y ray_len ray_angle circle_x circle_y
          circle_radius accuracy len = some (some i) →
        0 ≤ i.len ∧ i.len ≤ ray_len) ∧
    (∀ (ray_begin_x ray_begin_y ray_len ray_angle : ℝ) (lines : List (ℝ × ℝ × ℝ × ℝ))
        (i : Intersection),
        intersection_lines ray_begin_x ray_begin_y ray_len ray_angle lines = some i →
        0 ≤ i.len ∧ i.len ≤ ray_len) ∧
    (∀ (n : ℕ) (ray_begin_x ray_begin_y ray_len ray_angle : ℝ) (circles : List (ℝ × ℝ × ℝ))
        (accuracy : ℝ) (i : Intersection),
        intersection_circlesF n ray_begin_x ray_begin_y ray_len ray_angle circles accuracy =
          some (some i) →
        0 ≤ i.len ∧ i.len ≤ ray_len) ∧
    (∀ (n : ℕ) (ray_begin_x ray_begin_y ray_len ray_angle : ℝ)
        (lines : List (ℝ × ℝ × ℝ × ℝ)) (circles : List (ℝ × ℝ × ℝ)) (circles_accuracy : ℝ)
        (i : Intersection),
        intersectionF n ray_begin_x ray_begin_y ray_len ray_angle lines circles
          circles_accuracy = some (some i) →
        0 ≤ i.len ∧ i.len ≤ ray_len) ∧
    (∀ (n : ℕ) (view_angle fov : ℝ) (rays_count : ℕ) (ray_begin_x ray_begin_y ray_len : ℝ)
        (lines : List (ℝ × ℝ × ℝ × ℝ)) (circles : List (ℝ × ℝ × ℝ)) (circles_accuracy : ℝ)
        (l : List Ray) (r : Ray) (i : Intersection),
        raysF n view_angle fov rays_count ray_begin_x ray_begin_y ray_len lines circles
          circles_accuracy = some l →
        r ∈ l → r.intersection = some i → 0 ≤ i.len ∧ i.len ≤ ray_len) := by
  have hlines :
      ∀ (rbx rby rl ang : ℝ) (ls : List (ℝ × ℝ × ℝ × ℝ)) (i : Intersection),
        intersection_lines rbx rby rl ang ls = some i → 0 ≤ i.len ∧ i.len ≤ rl := by
    intro rbx rby rl ang ls i h
    rw [intersection_lines] at h
    rcases foldl_choose_closest_cases
        (fun l => intersection_line rbx rby rl ang l.1 l.2.1 l.2.2.1 l.2.2.2) ls none i h with
      hc | ⟨a, _, hfa⟩
    · simp at hc
    · exact intersection_line_len_bounds _ _ _ _ _ _ _ _ _ hfa
  have hcircles :
      ∀ (n : ℕ) (rbx rby rl ang : ℝ) (cs : List (ℝ × ℝ × ℝ)) (acc : ℝ) (i : Intersection),
        intersection_circlesF n rbx rby rl ang cs acc = some (some i) →
        0 ≤ i.len ∧ i.len ≤ rl := by
    intro n rbx rby rl ang cs acc i h
    rcases intersection_circlesGo_cases n rbx rby rl ang acc cs none i h with hc | ⟨c, _, hfc⟩
    · simp at hc
    · exact intersection_circleF_len_bounds n _ _ _ _ _ _ _ _ _ i le_rfl hfc
  have hinter :
      ∀ (n : ℕ) (rbx rby rl ang : ℝ) (ls : List (ℝ × ℝ × ℝ × ℝ)) (cs : List (ℝ × ℝ × ℝ))
        (acc : ℝ) (i : Intersection),
        intersectionF n rbx rby rl ang ls cs acc = some (some i) →
        0 ≤ i.len ∧ i.len ≤ rl := by
    intro n rbx rby rl ang ls cs acc i h
    rw [intersectionF] at h
    cases hc : intersection_circlesF n rbx rby rl ang cs acc with
    | none => rw [hc] at h; simp at h
    | some ic =>
      rw [hc] at h
      have hcc : choose_closest (intersection_lines rbx rby rl ang ls) ic = some i := by
        simpa using h
      rcases choose_closest_cases _ _ _ hcc with h1 | h2
      · exact hlines _ _ _ _ _ _ h1
      · exact hcircles n _ _ _ _ _ _ _ (by rw [hc, h2])
  refine ⟨intersection_line_len_bounds, intersection_circleF_len_bounds, hlines, hcircles,
    hinter, ?_⟩
  intro n va fov rc rbx rby rl ls cs acc l r i hl hr hri
  obtain ⟨a, ha⟩ := raysGo_intersections n va fov rc rbx rby rl ls cs acc _ l hl r hr
  rw [hri] at ha
  exact hinter n _ _ _ _ _ _ _ _ ha

/-- Witness for the amended C8: an accepting circle-refiner run started at
`len = 0` has its result length inside `[0, ray_len]`. -/
theorem all_hits_len_bounds_witness :
    (0 : ℝ) ≤ (Intersection.mk 0 0 0).len ∧ (Intersection.mk 0 0 0).len ≤ 5 :=
  all_hits_len_bounds.2.1 1 0 0 5 0 0 0 0 1 0 ⟨0, 0, 0⟩ le_rfl (by
    rw [show (1 : ℕ) = 0 + 1 from rfl, intersection_circleF_succ]
    rw [if_neg (by norm_num), if_pos]
    rw [len_to_circle, vector_len]
    norm_num)

/-! ## Claim C3: the ray fan -/

theorem raysGo_angles (n : ℕ) (view_angle fov : ℝ) (rays_count : ℕ)
    (ray_begin_x ray_begin_y ray_len : ℝ) (lines : List (ℝ × ℝ × ℝ × ℝ))
    (circles : List (ℝ × ℝ × ℝ)) (circles_accuracy : ℝ) :
    ∀ (js : List ℕ) (l : List Ray),
      raysGo n view_angle fov rays_count ray_begin_x ray_begin_y ray_len lines circles
          circles_accuracy js = some l →
      l.length = js.length ∧
        ∀ (k : ℕ) (hk : k < l.length) (hj : k < js.length),
          (l.get ⟨k, hk⟩).angle =
            ((js.get ⟨k, hj⟩ : ℕ) : ℝ) / (rays_count : ℝ) * fov + (view_angle - fov / 2) := by
  intro js
  induction js with
  | nil =>
    intro l h
    simp only [raysGo, Option.some.injEq] at h
    subst h
    exact ⟨rfl, fun k hk hj => absurd hk (by simp)⟩
  | cons j t ih =>
    intro l h
    simp only [raysGo] at h
    cases hint : intersectionF n ray_begin_x ray_begin_y ray_len
        ((j : ℝ) / (rays_count : ℝ) * fov + (view_angle - fov / 2)) lines circles
        circles_accuracy with
    | none => rw [hint] at h; simp at h
    | some it =>
      rw [hint] at h
      cases hgo : raysGo n view_angle fov rays_count ray_begin_x ray_begin_y ray_len lines
          circles circles_accuracy t with
      | none => rw [hgo] at h; simp at h
      | some rs =>
        rw [hgo] at h
        obtain rfl :
            Ray.mk ray_begin_x ray_begin_y
                ((j : ℝ) / (rays_count : ℝ) * fov + (view_angle - fov / 2)) it :: rs = l := by
          simpa using h
        obtain ⟨ihlen, ihget⟩ := ih rs hgo
        refine ⟨by simpa using ihlen, ?_⟩
        intro k hk hj
        cases k with
        | zero => rfl
        | succ m =>
          exact ihget m (by simpa using hk) (by simpa using hj)

/-- **C3.** For `rays_count > 0`, `rays` returns exactly `rays_count` rays
in sampling order; ray `i` has angle `i / rays_count * fov + (view_angle -
fov / 2)`; the first ray sits at `view_angle - fov / 2`, the last at
`view_angle - fov / 2 + fov * (rays_count - 1) / rays_count`, strictly
below `view_angle + fov / 2` when `fov > 0`. -/
theorem rays_fan_spec (n : ℕ) (view_angle fov : ℝ) (rays_count : ℕ)
    (ray_begin_x ray_begin_y ray_len : ℝ) (lines : List (ℝ × ℝ × ℝ × ℝ))
    (circles : List (ℝ × ℝ × ℝ)) (circles_accuracy : ℝ) (l : List Ray)
    (hrc : 0 < rays_count)
    (h : raysF n view_angle fov rays_count ray_begin_x ray_begin_y ray_len lines circles
      circles_accuracy = some l) :
    l.length = rays_count ∧
    (∀ (i : ℕ) (hi : i < l.length),
        (l.get ⟨i, hi⟩).angle =
          (i : ℝ) / (rays_count : ℝ) * fov + (view_angle - fov / 2)) ∧
    (∀ h0 : 0 < l.length, (l.get ⟨0, h0⟩).angle = view_angle - fov / 2) ∧
    (∀ hl : rays_count - 1 < l.length,
        (l.get ⟨rays_count - 1, hl⟩).angle =
          view_angle - fov / 2 + fov * ((rays_count : ℝ) - 1) / (rays_count : ℝ)) ∧
    (0 < fov →
        view_angle - fov / 2 + fov * ((rays_count : ℝ) - 1) / (rays_count : ℝ) <
          view_angle + fov / 2) := by
  obtain ⟨hlen, hget⟩ := raysGo_angles n view_angle fov rays_count ray_begin_x ray_begin_y
    ray_len lines circles circles_accuracy (List.range rays_count) l h
  rw [List.length_range] at hlen
  have hangle :
      ∀ (i : ℕ) (hi : i < l.length),
        (l.get ⟨i, hi⟩).angle =
          (i : ℝ) / (rays_count : ℝ) * fov + (view_angle - fov / 2) := by
    intro i hi
    have hj : i < (List.range rays_count).length := by
      rw [List.length_range, ← hlen]; exact hi
    have := hget i hi hj
    rwa [List.get_range] at this
  have hrc1 : (1 : ℕ) ≤ rays_count := hrc
  have hrcR : (0 : ℝ) < (rays_count : ℝ) := by exact_mod_cast hrc
  refine ⟨hlen, hangle, ?_, ?_, ?_⟩
  · intro h0
    rw [hangle 0 h0]
    norm_num
  · intro hl
    rw [hangle (rays_count - 1) hl]
    rw [Nat.cast_sub hrc1]
    push_cast
    ring
  · intro hfov
    have h1 : ((rays_count : ℝ) - 1) / (rays_count : ℝ) < 1 := by
      rw [div_lt_one hrcR]
      linarith
    have h2 : fov * (((rays_count : ℝ) - 1) / (rays_count : ℝ)) < fov * 1 :=
      mul_lt_mul_of_pos_left h1 hfov
    have h3 : fov * ((rays_count : ℝ) - 1) / (rays_count : ℝ) =
        fov * (((rays_count : ℝ) - 1) / (rays_count : ℝ)) := mul_div_assoc _ _ _
    rw [h3]
    linarith

/-- Witness for C3: a concrete two-ray fan over empty shape lists. -/
theorem rays_fan_spec_witness :
    (raysF 1 0 2 2 0 0 1 [] [] 1).elim False (fun l => l.length = 2) := by
  have hs : (raysF 1 0 2 2 0 0 1 [] [] 1).isSome = true := rfl
  obtain ⟨l, hl⟩ := Option.isSome_iff_exists.mp hs
  rw [hl]
  exact (rays_fan_spec 1 0 2 2 0 0 1 [] [] 1 l (by norm_num) hl).1

/-! ## Claim C5: order independence of the shape scans -/

theorem choose_closest_swap (c oa ob : Option Intersection)
    (H : ∀ ia ib, oa = some ia → ob = some ib → ia.len = ib.len → ia = ib) :
    choose_closest (choose_closest c oa) ob = choose_closest (choose_closest c ob) oa := by
  cases oa with
  | none =>
    cases ob with
    | none => rfl
    | some b =>
      cases c with
      | none => rfl
      | some z => simp only [choose_closest]; split_ifs <;> rfl
  | some a =>
    cases ob with
    | none =>
      cases c with
      | none => rfl
      | some z => simp only [choose_closest]; split_ifs <;> rfl
    | some b =>
      have HH : a.len = b.len → a = b := fun he => H a b rfl rfl he
      cases c with
      | none =>
        simp only [choose_closest]
        split_ifs with h1 h2 h3
        all_goals first
          | rfl
          | (exfalso; push_neg at *; linarith)
          | (rw [HH (by push_neg at *; linarith)])
      | some z =>
        simp only [choose_closest]
        split_ifs with h1 h2
        all_goals simp only [choose_closest]
        all_goals split_ifs
        all_goals first
          | rfl
          | (exfalso; push_neg at *; linarith)
          | (rw [HH (by push_neg at *; linarith)])

theorem foldl_choose_closest_perm {α : Type} (f : α → Option Intersection)
    (H : ∀ (a b : α) (ia ib : Intersection),
      f a = some ia → f b = some ib → ia.len = ib.len → ia = ib) :
    ∀ {l1 l2 : List α}, l1.Perm l2 → ∀ c,
      l1.foldl (fun closest a => choose_closest closest (f a)) c =
        l2.foldl (fun closest a => choose_closest closest (f a)) c := by
  intro l1 l2 hp
  induction hp with
  | nil => intro c; rfl
  | cons x p ih =>
    intro c
    simp only [List.foldl_cons]
    exact ih _
  | swap x y l =>
    intro c
    simp only [List.foldl_cons]
    rw [choose_closest_swap c (f y) (f x) (fun ia ib hia hib => H y x ia ib hia hib)]
  | trans p1 p2 ih1 ih2 =>
    intro c
    rw [ih1, ih2]

theorem intersection_circleF_hit_position :
    ∀ (n : ℕ)
      (ray_begin_x ray_begin_y ray_len ray_angle circle_x circle_y circle_radius accuracy len :
        ℝ) (i : Intersection),
      intersection_circleF n ray_begin_x ray_begin_y ray_len ray_angle circle_x circle_y
          circle_radius accuracy len = some (some i) →
      i.x = ray_begin_x + Real.cos ray_angle * (i.len - len) ∧
        i.y = ray_begin_y + Real.sin ray_angle * (i.len - len) := by
  intro n
  induction n with
  | zero =>
    intro rbx rby rl ang cx cy r acc len i h
    simp [intersection_circleF] at h
  | succ n ih =>
    intro rbx rby rl ang cx cy r acc len i h
    rw [intersection_circleF_succ] at h
    split_ifs at h with h1 h2
    · simp at h
    · obtain rfl : (⟨rbx, rby, len⟩ : Intersection) = i := by simpa using h
      constructor <;> (simp only []; ring)
    · obtain ⟨hx, hy⟩ := ih _ _ _ _ _ _ _ _ _ _ h
      constructor
      · rw [hx]; ring
      · rw [hy]; ring

theorem circle_hits_tie (n : ℕ) (ray_begin_x ray_begin_y ray_len ray_angle accuracy : ℝ)
    (c d : ℝ × ℝ × ℝ) (i1 i2 : Intersection)
    (h1 : intersection_circleF n ray_begin_x ray_begin_y ray_len ray_angle c.1 c.2.1 c.2.2
      accuracy 0 = some (some i1))
    (h2 : intersection_circleF n ray_begin_x ray_begin_y ray_len ray_angle d.1 d.2.1 d.2.2
      accuracy 0 = some (some i2))
    (hl : i1.len = i2.len) : i1 = i2 := by
  obtain ⟨hx1, hy1⟩ := intersection_circleF_hit_position n _ _ _ _ _ _ _ _ _ _ h1
  obtain ⟨hx2, hy2⟩ := intersection_circleF_hit_position n _ _ _ _ _ _ _ _ _ _ h2
  ext
  · rw [hx1, hx2, hl]
  · rw [hy1, hy2, hl]
  · exact hl

theorem intersection_circlesGo_perm (n : ℕ)
    (ray_begin_x ray_begin_y ray_len ray_angle accuracy : ℝ) :
    ∀ {cs1 cs2 : List (ℝ × ℝ × ℝ)}, cs1.Perm cs2 → ∀ closest,
      intersection_circlesGo n ray_begin_x ray_begin_y ray_len ray_angle accuracy closest cs1 =
        intersection_circlesGo n ray_begin_x ray_begin_y ray_len ray_angle accuracy closest
          cs2 := by
  intro cs1 cs2 hp
  induction hp with
  | nil => intro closest; rfl
  | cons x p ih =>
    intro closest
    simp only [intersection_circlesGo]
    cases hx : intersection_circleF n ray_begin_x ray_begin_y ray_len ray_angle x.1 x.2.1
        x.2.2 accuracy 0 with
    | none => rfl
    | some hit => exact ih _
  | swap x y l =>
    intro closest
    simp only [intersection_circlesGo]
    cases hy : intersection_circleF n ray_begin_x ray_begin_y ray_len ray_angle y.1 y.2.1
        y.2.2 accuracy 0 with
    | none =>
      cases hx : intersection_circleF n ray_begin_x ray_begin_y ray_len ray_angle x.1 x.2.1
          x.2.2 accuracy 0 with
      | none => rfl
      | some hitx => simp only [intersection_circlesGo, hy]
    | some hity =>
      cases hx : intersection_circleF n ray_begin_x ray_begin_y ray_len ray_angle x.1 x.2.1
          x.2.2 accuracy 0 with
      | none => simp only [intersection_circlesGo, hx]
      | some hitx =>
        simp only [intersection_circlesGo, hx, hy]
        rw [choose_closest_swap closest hity hitx
          (fun ia ib hia hib hlen => by
            subst hia
            subst hib
            exact circle_hits_tie n _ _ _ _ _ y x ia ib hy hx hlen)]
  | trans p1 p2 ih1 ih2 =>
    intro closest
    rw [ih1, ih2]

set_option maxHeartbeats 1000000 in
theorem intersection_line_hit_position
    (rbx rby rl ang x1 y1 x2 y2 : ℝ) (i : Intersection)
    (h : intersection_line rbx rby rl ang x1 y1 x2 y2 = some i) :
    (ray_tg rbx rby rl ang = 0 →
        i.x = 0 ∧ i.y = ray_b rbx rby rl ang ∧
          i.len = vector_len rbx rby 0 (ray_b rbx rby rl ang)) ∧
    (ray_tg rbx rby rl ang ≠ 0 →
        i.x = rbx + i.len * Real.cos ang ∧ i.y = rby + i.len * Real.sin ang) := by
  rw [intersection_line] at h
  split_ifs at h with h1 h2 h3 h4
  all_goals simp only [Option.some.injEq, reduceCtorEq] at h
  subst h
  constructor
  · -- the degenerate ray slope: the candidate collapses to (0, ray_b)
    intro hrt
    have hlt : line_tg x1 y1 x2 y2 ≠ 0 := by
      intro h0
      exact h1 (by rw [h0, hrt]; ring)
    have hx0 : hit_x rbx rby rl ang x1 y1 x2 y2 = 0 := by
      rw [hit_x, hrt, div_zero]
    have hy0 : hit_y rbx rby rl ang x1 y1 x2 y2 = ray_b rbx rby rl ang := by
      rw [hit_y, hrt, mul_zero, sub_zero, sub_zero]
      exact mul_div_cancel_right₀ _ hlt
    refine ⟨hx0, hy0, ?_⟩
    show hit_len rbx rby rl ang x1 y1 x2 y2 = vector_len rbx rby 0 (ray_b rbx rby rl ang)
    rw [hit_len, hx0, hy0]
  · -- a genuine slope: the accepted candidate sits at distance len along
    -- the ray direction
    intro hrt
    rw [line_cos] at h4
    have hd : ray_end_x rbx rl ang - rbx ≠ 0 := by
      intro h0
      exact hrt (by rw [ray_tg, h0, div_zero])
    have hce : ray_end_x rbx rl ang - rbx = Real.cos ang * rl := by
      rw [ray_end_x]; ring
    have hcosrl : Real.cos ang * rl ≠ 0 := by rwa [hce] at hd
    have hcos0 : Real.cos ang ≠ 0 := (mul_ne_zero_iff.mp hcosrl).1
    have hrl0 : rl ≠ 0 := (mul_ne_zero_iff.mp hcosrl).2
    have hrt_eq : ray_tg rbx rby rl ang = Real.sin ang / Real.cos ang := by
      rw [ray_tg, hce,
        show ray_end_y rby rl ang - rby = Real.sin ang * rl by rw [ray_end_y]; ring]
      exact mul_div_mul_right _ _ hrl0
    set T := ray_tg rbx rby rl ang with hT
    set X := hit_x rbx rby rl ang x1 y1 x2 y2 with hXd
    set Y := hit_y rbx rby rl ang x1 y1 x2 y2 with hYd
    set L := hit_len rbx rby rl ang x1 y1 x2 y2 with hLd
    have hxT : X * T = Y - ray_b rbx rby rl ang := by
      rw [hXd, hit_x]
      exact div_mul_cancel₀ _ hrt
    have hb : ray_b rbx rby rl ang = rby - T * rbx := by rw [ray_b]
    have hy_line : Y - rby = T * (X - rbx) := by
      linear_combination hb - hxT
    have h5 : Y - rby = Real.sin ang / Real.cos ang * (X - rbx) := by
      rw [← hrt_eq]; exact hy_line
    have hLdef : L = Real.sqrt ((rbx - X) ^ 2 + (rby - Y) ^ 2) := by
      rw [hLd, hit_len, vector_len]
    have hL0 : 0 ≤ L := by rw [hLdef]; exact Real.sqrt_nonneg _
    have hLsq : L ^ 2 = (rbx - X) ^ 2 + (rby - Y) ^ 2 := by
      rw [hLdef]; exact Real.sq_sqrt (by positivity)
    have hsc : Real.sin ang ^ 2 + Real.cos ang ^ 2 = 1 := Real.sin_sq_add_cos_sq ang
    have h6 : (rby - Y) ^ 2 * Real.cos ang ^ 2 = Real.sin ang ^ 2 * (X - rbx) ^ 2 := by
      rw [show rby - Y = -(Real.sin ang / Real.cos ang * (X - rbx)) by rw [← h5]; ring]
      field_simp
      ring
    have hLcos : L ^ 2 * Real.cos ang ^ 2 = (X - rbx) ^ 2 := by
      have e1 : L ^ 2 * Real.cos ang ^ 2 =
          (rbx - X) ^ 2 * Real.cos ang ^ 2 + (rby - Y) ^ 2 * Real.cos ang ^ 2 := by
        rw [hLsq]; ring
      rw [e1, h6]
      have e2 : (rbx - X) ^ 2 = (X - rbx) ^ 2 := by ring
      rw [e2]
      linear_combination (X - rbx) ^ 2 * hsc
    have hLle : L ≤ rl := le_of_not_lt h3
    have hrlpos : 0 < rl := lt_of_le_of_ne (hL0.trans hLle) (Ne.symm hrl0)
    rcases eq_or_lt_of_le hL0 with hL00 | hLpos
    · -- the hit coincides with the ray origin
      have hsum : (rbx - X) ^ 2 + (rby - Y) ^ 2 = 0 := by rw [← hLsq, ← hL00]; ring
      have h9a : (rbx - X) ^ 2 = 0 := by
        linarith [sq_nonneg (rbx - X), sq_nonneg (rby - Y)]
      have h9b : (rby - Y) ^ 2 = 0 := by
        linarith [sq_nonneg (rbx - X), sq_nonneg (rby - Y)]
      have hXx : X = rbx := by
        have := sq_eq_zero_iff.mp h9a
        linarith
      have hYy : Y = rby := by
        have := sq_eq_zero_iff.mp h9b
        linarith
      constructor
      · show X = rbx + L * Real.cos ang
        rw [hXx, ← hL00]; ring
      · show Y = rby + L * Real.sin ang
        rw [hYy, ← hL00]; ring
    · -- a positive-length hit: the forward-cosine guard fixes the sign
      have h5c : Real.cos ang * (Y - rby) = Real.sin ang * (X - rbx) := by
        rw [h5]
        field_simp
      have hnum : (rbx - ray_end_x rbx rl ang) * (rbx - X) +
          (rby - ray_end_y rby rl ang) * (rby - Y) = rl * (X - rbx) / Real.cos ang := by
        rw [eq_div_iff hcos0, ray_end_x, ray_end_y]
        linear_combination rl * Real.sin ang * h5c + rl * (X - rbx) * hsc
      have hcc : 0 ≤ rl * (X - rbx) / Real.cos ang := by
        have h7 : 0 ≤ ((rbx - ray_end_x rbx rl ang) * (rbx - X) +
            (rby - ray_end_y rby rl ang) * (rby - Y)) / (L * rl) := by
          rw [vectors_cos] at h4
          exact le_of_not_lt h4
        rw [hnum] at h7
        rcases div_nonneg_iff.mp h7 with ⟨ha, _⟩ | ⟨_, hbneg⟩
        · exact ha
        · linarith [mul_pos hLpos hrlpos]
      have hS : 0 ≤ (X - rbx) / Real.cos ang := by
        by_contra hneg
        push_neg at hneg
        have hmul : rl * ((X - rbx) / Real.cos ang) < 0 :=
          mul_neg_of_pos_of_neg hrlpos hneg
        rw [show rl * (X - rbx) / Real.cos ang = rl * ((X - rbx) / Real.cos ang) from
          mul_div_assoc _ _ _] at hcc
        linarith
      have hfact : (X - rbx - L * Real.cos ang) * (X - rbx + L * Real.cos ang) = 0 := by
        linear_combination -hLcos
      rcases mul_eq_zero.mp hfact with hc1 | hc2
      · have hXv : X = rbx + L * Real.cos ang := by linarith
        constructor
        · exact hXv
        · show Y = rby + L * Real.sin ang
          have h8 : Y - rby = Real.sin ang / Real.cos ang * (L * Real.cos ang) := by
            rw [h5, show X - rbx = L * Real.cos ang by linarith]
          have h8b : Real.sin ang / Real.cos ang * (L * Real.cos ang) =
              L * Real.sin ang := by
            field_simp
            ring
          rw [h8b] at h8
          linarith
      · exfalso
        have hXc : X - rbx = -(L * Real.cos ang) := by linarith
        rw [hXc, show -(L * Real.cos ang) / Real.cos ang = -L by
          field_simp] at hS
        linarith

theorem intersection_line_tie (rbx rby rl ang x1 y1 x2 y2 u1 v1 u2 v2 : ℝ)
    (i1 i2 : Intersection)
    (h1 : intersection_line rbx rby rl ang x1 y1 x2 y2 = some i1)
    (h2 : intersection_line rbx rby rl ang u1 v1 u2 v2 = some i2)
    (hl : i1.len = i2.len) : i1 = i2 := by
  obtain ⟨hz1, hp1⟩ := intersection_line_hit_position rbx rby rl ang x1 y1 x2 y2 i1 h1
  obtain ⟨hz2, hp2⟩ := intersection_line_hit_position rbx rby rl ang u1 v1 u2 v2 i2 h2
  by_cases hrt : ray_tg rbx rby rl ang = 0
  · obtain ⟨ha, hb1, hc⟩ := hz1 hrt
    obtain ⟨hd, he, hf⟩ := hz2 hrt
    ext
    · rw [ha, hd]
    · rw [hb1, he]
    · rw [hc, hf]
  · obtain ⟨ha, hb1⟩ := hp1 hrt
    obtain ⟨hc, hd⟩ := hp2 hrt
    ext
    · rw [ha, hc, hl]
    · rw [hb1, hd, hl]
    · exact hl

/-- **C5.** Permuting the segment list and the circle list changes neither
the segment scan, nor the circle scan, nor their merge in `intersection`:
within one ray, two accepted segment hits of equal `len` coincide, and so
do two accepted circle hits, so the first-biased `choose_closest` fold is
order independent. -/
theorem intersection_perm_invariant (n : ℕ) (ray_begin_x ray_begin_y ray_len ray_angle
      circles_accuracy : ℝ)
    (ls1 ls2 : List (ℝ × ℝ × ℝ × ℝ)) (cs1 cs2 : List (ℝ × ℝ × ℝ))
    (hpl : ls1.Perm ls2) (hpc : cs1.Perm cs2) :
    intersection_lines ray_begin_x ray_begin_y ray_len ray_angle ls1 =
      intersection_lines ray_begin_x ray_begin_y ray_len ray_angle ls2 ∧
    intersection_circlesF n ray_begin_x ray_begin_y ray_len ray_angle cs1 circles_accuracy =
      intersection_circlesF n ray_begin_x ray_begin_y ray_len ray_angle cs2
        circles_accuracy ∧
    intersectionF n ray_begin_x ray_begin_y ray_len ray_angle ls1 cs1 circles_accuracy =
      intersectionF n ray_begin_x ray_begin_y ray_len ray_angle ls2 cs2
        circles_accuracy := by
  have hlines : intersection_lines ray_begin_x ray_begin_y ray_len ray_angle ls1 =
      intersection_lines ray_begin_x ray_begin_y ray_len ray_angle ls2 := by
    rw [intersection_lines, intersection_lines]
    exact foldl_choose_closest_perm
      (fun l => intersection_line ray_begin_x ray_begin_y ray_len ray_angle l.1 l.2.1
        l.2.2.1 l.2.2.2)
      (fun a b ia ib hia hib hlen =>
        intersection_line_tie ray_begin_x ray_begin_y ray_len ray_angle a.1 a.2.1 a.2.2.1
          a.2.2.2 b.1 b.2.1 b.2.2.1 b.2.2.2 ia ib hia hib hlen)
      hpl none
  have hcirc : intersection_circlesF n ray_begin_x ray_begin_y ray_len ray_angle cs1
      circles_accuracy =
      intersection_circlesF n ray_begin_x ray_begin_y ray_len ray_angle cs2
        circles_accuracy := by
    rw [intersection_circlesF, intersection_circlesF]
    exact intersection_circlesGo_perm n ray_begin_x ray_begin_y ray_len ray_angle
      circles_accuracy hpc none
  refine ⟨hlines, hcirc, ?_⟩
  rw [intersectionF, intersectionF, hcirc, hlines]

/-- Witness for C5: swapping two concrete segments leaves the scan result
unchanged. -/
theorem intersection_perm_invariant_witness :
    intersection_lines 0 0 10 1 [(1, 2, 3, 4), (5, 6, 7, 8)] =
      intersection_lines 0 0 10 1 [(5, 6, 7, 8), (1, 2, 3, 4)] :=
  (intersection_perm_invariant 1 0 0 10 1 1 [(1, 2, 3, 4), (5, 6, 7, 8)]
    [(5, 6, 7, 8), (1, 2, 3, 4)] [] [] (List.Perm.swap (5, 6, 7, 8) (1, 2, 3, 4) [])
    (List.Perm.refl [])).1

end Caster
